import Mathlib

/-!
Shallow embedding of the Candidate Ranking Engine of
`backend/services/ranking_system.py` (class `RankingSystem`), together with
proofs of the specified properties.

Modelling conventions:

* Nullable text columns (`skills`, `experience`, …) are `Option String`;
  Python's truthiness test `if not field` is `falsy` below (`None` and `""`
  are the falsy strings).
* The serialized personality-trait columns are modelled by their
  `json.loads` outcome (`TraitStr`): the column is falsy (`absent`), it is a
  truthy string on which `json.loads` raises (`malformed`), or it parses to
  a JSON value (`parsed v`).  A parsed value (`JVal`) is either a JSON
  object mapping trait names to values (`obj`), or some other JSON value
  (`nonObj truthy`), of which the engine only ever observes Python
  truthiness before it crashes on it.  A JSON object's values are either
  numbers (`TraitVal.num`, exact rationals) or something non-numeric
  (`TraitVal.nonnum`).
* Python `float` arithmetic is modelled exactly: the four keyword scorers
  compute in `ℚ`, the personality scorer and the composite score in `ℝ`
  (`Real.sqrt` for `math.sqrt`).
* The scorer bodies mirror the Python control flow line by line; statements
  that can raise an uncaught exception (`for trait in required_traits`,
  `candidate_traits.get`, `required_value - candidate_value` on non-numeric
  operands) are modelled with `Except Unit`, `.error ()` standing for the
  escaped exception.
-/

namespace RankingSystem

/-! ### Data model (`backend/models/candidate.py`, `backend/models/job.py`) -/

/-- A JSON value stored at one key of a parsed trait mapping: a number, or
some non-numeric JSON value (string, list, …). -/
inductive TraitVal where
  | num (q : ℚ)
  | nonnum
  deriving DecidableEq

/-- A parsed JSON object, in key insertion order (Python dicts preserve it). -/
abbrev TraitMap := List (String × TraitVal)

/-- The result of `json.loads` on a truthy trait column: a JSON object, or a
non-object JSON value of which only its Python truthiness matters before the
engine raises on it. -/
inductive JVal where
  | obj (m : TraitMap)
  | nonObj (truthy : Bool)
  deriving DecidableEq

/-- A nullable serialized-trait text column, by `json.loads` outcome. -/
inductive TraitStr where
  | absent
  | malformed
  | parsed (v : JVal)
  deriving DecidableEq

/-- A row of the `candidates` table, restricted to the fields the ranking
engine reads. -/
structure Candidate where
  name : String
  email : String
  skills : Option String
  experience : Option String
  education : Option String
  certifications : Option String
  personality_traits : TraitStr
  test_personality_traits : TraitStr
  deriving DecidableEq

/-- A row of the `jobs` table, restricted to the fields the engine reads. -/
structure Job where
  title : String
  required_skills : Option String
  required_experience : Option String
  required_education : Option String
  required_certifications : Option String
  required_personality_traits : TraitStr
  deriving DecidableEq

/-! ### Python string primitives, on `List Char` -/

/-- Python truthiness of a nullable string: `None` and `""` are falsy. -/
def falsy : Option String → Bool
  | none => true
  | some s => s.isEmpty

/-- The string held by a non-null column (`none` never reaches the code
paths that use it, the falsy test fires first). -/
def orEmpty : Option String → String
  | none => ""
  | some s => s

/-- Python `str.split(sep)` for a one-character separator: always returns at
least one piece, keeps empty pieces. -/
def pySplitPred (p : Char → Bool) : List Char → List (List Char)
  | [] => [[]]
  | c :: cs =>
    if p c then [] :: pySplitPred p cs
    else
      match pySplitPred p cs with
      | [] => [[c]]
      | t :: ts => (c :: t) :: ts

/-- Python `str.strip()`: drop leading and trailing whitespace. -/
def stripCL (l : List Char) : List Char :=
  ((l.dropWhile Char.isWhitespace).reverse.dropWhile Char.isWhitespace).reverse

/-- Python `str.lower()` (ASCII). -/
def lowerCL (l : List Char) : List Char :=
  l.map Char.toLower

/-- `[x.strip().lower() for x in s.split(',')]`, as used by the skill and
certification scorers. -/
def pyCommaTokens (s : String) : List (List Char) :=
  (pySplitPred (fun c => c == ',') s.toList).map (fun t => lowerCL (stripCL t))

/-- Python `str.split()` with no argument: split on whitespace runs,
discarding empty pieces. -/
def pyWsTokens (l : List Char) : List (List Char) :=
  (pySplitPred Char.isWhitespace l).filter (fun t => !t.isEmpty)

/-- Does `needle` occur as a prefix of `hay`? -/
def hasPrefixCL : List Char → List Char → Bool
  | [], _ => true
  | _ :: _, [] => false
  | a :: as, b :: bs => a == b && hasPrefixCL as bs

/-- Python substring test `needle in hay` (contiguous occurrence). -/
def containsCL (needle : List Char) : List Char → Bool
  | [] => hasPrefixCL needle []
  | hay@(_ :: t) => hasPrefixCL needle hay || containsCL needle t

/-! ### The five factor scorers -/

/-- Weight constants from `RankingSystem.__init__`. -/
def skill_weight : ℝ := 0.3

/-- Weight constant from `RankingSystem.__init__`. -/
def experience_weight : ℝ := 0.2

/-- Weight constant from `RankingSystem.__init__`. -/
def education_weight : ℝ := 0.1

/-- Weight constant from `RankingSystem.__init__`. -/
def certification_weight : ℝ := 0.1

/-- Weight constant from `RankingSystem.__init__`. -/
def personality_weight : ℝ := 0.3

/-- `RankingSystem._calculate_skill_score`. -/
def _calculate_skill_score (candidate_obj : Candidate) (job_profile : Job) : ℚ :=
  if falsy job_profile.required_skills || falsy candidate_obj.skills then 0.5
  else
    let required_skills := pyCommaTokens (orEmpty job_profile.required_skills)
    let candidate_skills := pyCommaTokens (orEmpty candidate_obj.skills)
    if required_skills.isEmpty then 0.5
    else
      let match_count := required_skills.countP (fun s => candidate_skills.contains s)
      (match_count : ℚ) / (required_skills.length : ℚ)

/-- `RankingSystem._calculate_experience_score`. -/
def _calculate_experience_score (candidate_obj : Candidate) (job_profile : Job) : ℚ :=
  if falsy job_profile.required_experience || falsy candidate_obj.experience then 0.5
  else
    let required_keywords := pyWsTokens (lowerCL (orEmpty job_profile.required_experience).toList)
    let candidate_experience_text := lowerCL (orEmpty candidate_obj.experience).toList
    if required_keywords.isEmpty then 0.5
    else
      let match_count := required_keywords.countP (fun k => containsCL k candidate_experience_text)
      (match_count : ℚ) / (required_keywords.length : ℚ)

/-- `RankingSystem._calculate_education_score`. -/
def _calculate_education_score (candidate_obj : Candidate) (job_profile : Job) : ℚ :=
  if falsy job_profile.required_education || falsy candidate_obj.education then 0.5
  else
    let required_keywords := pyWsTokens (lowerCL (orEmpty job_profile.required_education).toList)
    let candidate_education_text := lowerCL (orEmpty candidate_obj.education).toList
    if required_keywords.isEmpty then 0.5
    else
      let match_count := required_keywords.countP (fun k => containsCL k candidate_education_text)
      (match_count : ℚ) / (required_keywords.length : ℚ)

/-- `RankingSystem._calculate_certification_score`. -/
def _calculate_certification_score (candidate_obj : Candidate) (job_profile : Job) : ℚ :=
  if falsy job_profile.required_certifications || falsy candidate_obj.certifications then 0.5
  else
    let required_certs := pyCommaTokens (orEmpty job_profile.required_certifications)
    let candidate_certs := pyCommaTokens (orEmpty candidate_obj.certifications)
    if required_certs.isEmpty then 0.5
    else
      let match_count := required_certs.countP (fun s => candidate_certs.contains s)
      (match_count : ℚ) / (required_certs.length : ℚ)

/-! ### The personality scorer -/

/-- The candidate-trait source selection of `_calculate_personality_score`:
prefer `test_personality_traits` when truthy (a parse failure there yields
`{}`), else `personality_traits` (same fallback), else no source at all. -/
def selectCandidateTraits (candidate_obj : Candidate) : Option JVal :=
  match candidate_obj.test_personality_traits with
  | .malformed => some (.obj [])
  | .parsed v => some v
  | .absent =>
    match candidate_obj.personality_traits with
    | .malformed => some (.obj [])
    | .parsed v => some v
    | .absent => none

/-- Python truthiness of a parsed JSON value (`if not required_traits`). -/
def jvalFalsy : JVal → Bool
  | .obj m => m.isEmpty
  | .nonObj truthy => !truthy

/-- Python `dict.get(key, default)` on a parsed JSON object. -/
def dictGet (m : TraitMap) (k : String) (d : TraitVal) : TraitVal :=
  match m.lookup k with
  | some v => v
  | none => d

/-- One loop step `(required_value - candidate_value) ** 2`; a non-numeric
operand is the uncaught Python `TypeError`. -/
def pairSq : TraitVal → TraitVal → Except Unit ℚ
  | .num a, .num b => .ok ((a - b) ^ 2)
  | _, _ => .error ()

/-- The accumulation loop `for trait in required_traits: distance += …`,
iterating over the required keys; the first exception aborts the loop. -/
def sumSqKeys (mr mc : TraitMap) : List String → Except Unit ℚ
  | [] => .ok 0
  | k :: ks =>
    match pairSq (dictGet mr k (.num 0.5)) (dictGet mc k (.num 0.5)) with
    | .error e => .error e
    | .ok s =>
      match sumSqKeys mr mc ks with
      | .error e => .error e
      | .ok rest => .ok (s + rest)

/-- `RankingSystem._calculate_personality_score`.  `.error ()` is an escaped
exception: iterating a non-object (`TypeError`), calling `.get` on a
non-dict (`AttributeError`), or subtracting non-numbers (`TypeError`), none
of which the bare `except` around `json.loads` catches. -/
noncomputable def _calculate_personality_score (candidate_obj : Candidate)
    (job_profile : Job) : Except Unit ℝ :=
  match job_profile.required_personality_traits with
  | .absent => .ok 0.5
  | .malformed => .ok 0.5
  | .parsed required_json =>
    match selectCandidateTraits candidate_obj with
    | none => .ok 0.5
    | some candidate_json =>
      if jvalFalsy required_json || jvalFalsy candidate_json then .ok 0.5
      else
        match required_json, candidate_json with
        | .nonObj _, _ => .error ()
        | .obj _, .nonObj _ => .error ()
        | .obj mr, .obj mc =>
          match sumSqKeys mr mc (mr.map Prod.fst) with
          | .error e => .error e
          | .ok sum_sq =>
            .ok (1 - Real.sqrt (sum_sq : ℝ) / Real.sqrt 5)

/-! ### Combiner and ranking -/

/-- `RankingSystem._calculate_candidate_score`: the weighted sum of the five
factor scores; an exception from the personality scorer propagates. -/
noncomputable def _calculate_candidate_score (candidate_obj : Candidate)
    (job_profile : Job) : Except Unit ℝ :=
  match _calculate_personality_score candidate_obj job_profile with
  | .error e => .error e
  | .ok personality_score =>
    .ok ((_calculate_skill_score candidate_obj job_profile : ℝ) * skill_weight +
         (_calculate_experience_score candidate_obj job_profile : ℝ) * experience_weight +
         (_calculate_education_score candidate_obj job_profile : ℝ) * education_weight +
         (_calculate_certification_score candidate_obj job_profile : ℝ) * certification_weight +
         personality_score * personality_weight)

/-- The scoring loop of `rank_candidates`: one `(candidate, score)` pair per
input candidate, in input order; the first escaped exception aborts. -/
noncomputable def scoredPairs (candidates : List Candidate) (job_profile : Job) :
    Except Unit (List (Candidate × ℝ)) :=
  match candidates with
  | [] => .ok []
  | c :: rest =>
    match _calculate_candidate_score c job_profile with
    | .error e => .error e
    | .ok score =>
      match scoredPairs rest job_profile with
      | .error e => .error e
      | .ok tail => .ok ((c, score) :: tail)

/-- The sort order of `ranked_candidates.sort(key=lambda x: x[1], reverse=True)`:
descending by score. -/
def scoreGe (x y : Candidate × ℝ) : Prop := y.2 ≤ x.2

noncomputable instance : DecidableRel scoreGe := fun x y => Real.decidableLE y.2 x.2

instance : IsTotal (Candidate × ℝ) scoreGe := ⟨fun a b => le_total b.2 a.2⟩

instance : IsTrans (Candidate × ℝ) scoreGe :=
  ⟨fun _ _ _ h1 h2 => le_trans h2 h1⟩

/-- `RankingSystem.rank_candidates`.  Python's `list.sort` is a stable sort;
`List.insertionSort` with the descending-score relation is stable and sorted,
hence extensionally the same function. -/
noncomputable def rank_candidates (candidates : List Candidate) (job_profile : Job) :
    Except Unit (List (Candidate × ℝ)) :=
  match scoredPairs candidates job_profile with
  | .error e => .error e
  | .ok ranked_candidates => .ok (ranked_candidates.insertionSort scoreGe)

/-! ### Auxiliary predicates used in theorem statements -/

/-- Is a parsed JSON value a number? -/
def valNum : TraitVal → Bool
  | .num _ => true
  | .nonnum => false

/-- Is a parsed JSON value a number in the documented range `[0,1]`
(non-numbers are unconstrained, the scorer raises on them anyway)? -/
def valInRange : TraitVal → Bool
  | .num q => decide (0 ≤ q) && decide (q ≤ 1)
  | .nonnum => true

/-- All values of a trait mapping lie in `[0,1]`. -/
def mapInRange (m : TraitMap) : Bool :=
  m.all (fun p => valInRange p.2)

/-- A serialized trait column whose parsed object values lie in `[0,1]`. -/
def traitStrInRange : TraitStr → Bool
  | .parsed (.obj m) => mapInRange m
  | _ => true

/-- The number of required personality traits the job actually carries. -/
def requiredTraitCount (j : Job) : Nat :=
  match j.required_personality_traits with
  | .parsed (.obj m) => m.length
  | _ => 0

/-- A parsed JSON value the engine can digest without raising: an object all
of whose values are numbers, or a falsy non-object. -/
def jvalTame : JVal → Bool
  | .obj m => m.all (fun p => valNum p.2)
  | .nonObj truthy => !truthy

/-- A serialized trait column the engine can digest without raising. -/
def traitStrTame : TraitStr → Bool
  | .parsed v => jvalTame v
  | _ => true

/-! ### Helper lemmas -/

theorem pySplitPred_ne_nil (p : Char → Bool) (l : List Char) : pySplitPred p l ≠ [] := by
  induction l with
  | nil => simp [pySplitPred]
  | cons a t ih =>
    simp only [pySplitPred]
    split
    · simp
    · cases h : pySplitPred p t with
      | nil => simp
      | cons x xs => simp

theorem pyCommaTokens_ne_nil (s : String) : pyCommaTokens s ≠ [] := by
  unfold pyCommaTokens
  simp only [ne_eq, List.map_eq_nil_iff]
  exact pySplitPred_ne_nil _ _

theorem ratio_mem_unit {k n : ℕ} (hk : k ≤ n) (hn : n ≠ 0) :
    0 ≤ (k : ℚ) / (n : ℚ) ∧ (k : ℚ) / (n : ℚ) ≤ 1 := by
  have hn' : (0 : ℚ) < (n : ℚ) := by positivity
  constructor
  · positivity
  · rw [div_le_one hn']
    exact_mod_cast hk

theorem skill_score_bounds (c : Candidate) (j : Job) :
    0 ≤ _calculate_skill_score c j ∧ _calculate_skill_score c j ≤ 1 := by
  unfold _calculate_skill_score
  split
  · norm_num
  · dsimp only
    split
    · norm_num
    · rename_i hne
      refine ratio_mem_unit (List.countP_le_length _) ?_
      simpa [List.isEmpty_iff, List.length_eq_zero] using hne

theorem certification_score_bounds (c : Candidate) (j : Job) :
    0 ≤ _calculate_certification_score c j ∧ _calculate_certification_score c j ≤ 1 := by
  unfold _calculate_certification_score
  split
  · norm_num
  · dsimp only
    split
    · norm_num
    · rename_i hne
      refine ratio_mem_unit (List.countP_le_length _) ?_
      simpa [List.isEmpty_iff, List.length_eq_zero] using hne

theorem experience_score_bounds (c : Candidate) (j : Job) :
    0 ≤ _calculate_experience_score c j ∧ _calculate_experience_score c j ≤ 1 := by
  unfold _calculate_experience_score
  split
  · norm_num
  · dsimp only
    split
    · norm_num
    · rename_i hne
      refine ratio_mem_unit (List.countP_le_length _) ?_
      simpa [List.isEmpty_iff, List.length_eq_zero] using hne

theorem education_score_bounds (c : Candidate) (j : Job) :
    0 ≤ _calculate_education_score c j ∧ _calculate_education_score c j ≤ 1 := by
  unfold _calculate_education_score
  split
  · norm_num
  · dsimp only
    split
    · norm_num
    · rename_i hne
      refine ratio_mem_unit (List.countP_le_length _) ?_
      simpa [List.isEmpty_iff, List.length_eq_zero] using hne

theorem lookup_mem {m : TraitMap} {k : String} {v : TraitVal}
    (h : m.lookup k = some v) : ∃ p ∈ m, p.2 = v := by
  induction m with
  | nil => simp [List.lookup] at h
  | cons a t ih =>
    rw [List.lookup] at h
    split at h
    · exact ⟨a, List.mem_cons_self a t, Option.some.inj h⟩
    · obtain ⟨p, hp, hv⟩ := ih h
      exact ⟨p, List.mem_cons_of_mem _ hp, hv⟩

theorem dictGet_eq_default_or_mem (m : TraitMap) (k : String) (d : TraitVal) :
    dictGet m k d = d ∨ ∃ p ∈ m, dictGet m k d = p.2 := by
  unfold dictGet
  cases h : m.lookup k with
  | none => exact Or.inl rfl
  | some v =>
    obtain ⟨p, hp, hv⟩ := lookup_mem h
    exact Or.inr ⟨p, hp, hv.symm⟩

theorem mapInRange_val {m : TraitMap} (h : mapInRange m = true)
    {p : String × TraitVal} (hp : p ∈ m) : valInRange p.2 = true := by
  unfold mapInRange at h
  rw [List.all_eq_true] at h
  exact h p hp

theorem dictGet_inRange {m : TraitMap} {k : String} {d : TraitVal}
    (hm : mapInRange m = true) (hd : valInRange d = true) :
    valInRange (dictGet m k d) = true := by
  rcases dictGet_eq_default_or_mem m k d with h | ⟨p, hp, h⟩
  · rw [h]; exact hd
  · rw [h]; exact mapInRange_val hm hp

theorem valInRange_num {q : ℚ} (h : valInRange (.num q) = true) : 0 ≤ q ∧ q ≤ 1 := by
  unfold valInRange at h
  simpa using h

theorem pairSq_ok_nonneg {a b : TraitVal} {s : ℚ} (h : pairSq a b = .ok s) : 0 ≤ s := by
  cases a with
  | nonnum => simp [pairSq] at h
  | num qa =>
    cases b with
    | nonnum => simp [pairSq] at h
    | num qb =>
      simp only [pairSq, Except.ok.injEq] at h
      rw [← h]
      positivity

theorem pairSq_ok_le_one {a b : TraitVal} {s : ℚ}
    (ha : valInRange a = true) (hb : valInRange b = true)
    (h : pairSq a b = .ok s) : s ≤ 1 := by
  cases a with
  | nonnum => simp [pairSq] at h
  | num qa =>
    cases b with
    | nonnum => simp [pairSq] at h
    | num qb =>
      simp only [pairSq, Except.ok.injEq] at h
      obtain ⟨ha1, ha2⟩ := valInRange_num ha
      obtain ⟨hb1, hb2⟩ := valInRange_num hb
      nlinarith [h]

theorem sumSqKeys_nonneg {mr mc : TraitMap} :
    ∀ {ks : List String} {q : ℚ}, sumSqKeys mr mc ks = .ok q → 0 ≤ q := by
  intro ks
  induction ks with
  | nil =>
    intro q h
    simp only [sumSqKeys, Except.ok.injEq] at h
    exact h.le
  | cons k ks ih =>
    intro q h
    rw [sumSqKeys] at h
    split at h
    · exact absurd h (by simp)
    · rename_i s hs
      split at h
      · exact absurd h (by simp)
      · rename_i rest hrest
        simp only [Except.ok.injEq] at h
        have := pairSq_ok_nonneg hs
        have := ih hrest
        linarith [h]

theorem sumSqKeys_le_length {mr mc : TraitMap}
    (hmr : mapInRange mr = true) (hmc : mapInRange mc = true) :
    ∀ {ks : List String} {q : ℚ}, sumSqKeys mr mc ks = .ok q → q ≤ ks.length := by
  intro ks
  induction ks with
  | nil =>
    intro q h
    simp only [sumSqKeys, Except.ok.injEq] at h
    simp [← h]
  | cons k ks ih =>
    intro q h
    rw [sumSqKeys] at h
    split at h
    · exact absurd h (by simp)
    · rename_i s hs
      split at h
      · exact absurd h (by simp)
      · rename_i rest hrest
        simp only [Except.ok.injEq] at h
        have hhalf : valInRange (TraitVal.num 0.5) = true := by
          unfold valInRange
          norm_num
        have h1 : s ≤ 1 :=
          pairSq_ok_le_one (dictGet_inRange hmr hhalf) (dictGet_inRange hmc hhalf) hs
        have h2 : rest ≤ ks.length := ih hrest
        rw [← h, List.length_cons]
        push_cast
        linarith

theorem personality_ok_form {c : Candidate} {j : Job} {r : ℝ}
    (h : _calculate_personality_score c j = .ok r) :
    r = 0.5 ∨ ∃ (q : ℚ) (mr mc : TraitMap),
      0 ≤ q ∧
      j.required_personality_traits = .parsed (.obj mr) ∧
      selectCandidateTraits c = some (.obj mc) ∧
      sumSqKeys mr mc (mr.map Prod.fst) = .ok q ∧
      r = 1 - Real.sqrt (q : ℝ) / Real.sqrt 5 := by
  unfold _calculate_personality_score at h
  cases hreq : j.required_personality_traits with
  | absent =>
    rw [hreq] at h
    simp at h
    exact Or.inl h.symm
  | malformed =>
    rw [hreq] at h
    simp at h
    exact Or.inl h.symm
  | parsed rv =>
    rw [hreq] at h
    cases hsel : selectCandidateTraits c with
    | none =>
      rw [hsel] at h
      simp at h
      exact Or.inl h.symm
    | some cj =>
      rw [hsel] at h
      dsimp only at h
      by_cases hf : (jvalFalsy rv || jvalFalsy cj) = true
      · rw [if_pos hf] at h
        simp at h
        exact Or.inl h.symm
      · rw [if_neg hf] at h
        cases rv with
        | nonObj t => simp at h
        | obj mr =>
          cases cj with
          | nonObj t => simp at h
          | obj mc =>
            dsimp only at h
            cases hs : sumSqKeys mr mc (mr.map Prod.fst) with
            | error e =>
              rw [hs] at h
              simp at h
            | ok q =>
              rw [hs] at h
              simp only [Except.ok.injEq] at h
              exact Or.inr ⟨q, mr, mc, sumSqKeys_nonneg hs, rfl, rfl, hs, h.symm⟩

theorem personality_ok_le_one {c : Candidate} {j : Job} {r : ℝ}
    (h : _calculate_personality_score c j = .ok r) : r ≤ 1 := by
  rcases personality_ok_form h with h05 | ⟨q, mr, mc, hq, _, _, _, hr⟩
  · rw [h05]; norm_num
  · rw [hr]
    have h1 : 0 ≤ Real.sqrt (q : ℝ) / Real.sqrt 5 := by positivity
    linarith

theorem select_obj_inRange {c : Candidate} {mc : TraitMap}
    (h1 : traitStrInRange c.personality_traits = true)
    (h2 : traitStrInRange c.test_personality_traits = true)
    (hsel : selectCandidateTraits c = some (.obj mc)) : mapInRange mc = true := by
  unfold selectCandidateTraits at hsel
  cases htest : c.test_personality_traits with
  | malformed =>
    rw [htest] at hsel
    dsimp only at hsel
    have h := Option.some.inj hsel
    injection h with h
    rw [← h]
    rfl
  | parsed v =>
    rw [htest] at hsel
    dsimp only at hsel
    rw [htest, Option.some.inj hsel] at h2
    exact h2
  | absent =>
    rw [htest] at hsel
    dsimp only at hsel
    cases hpers : c.personality_traits with
    | absent =>
      rw [hpers] at hsel
      exact absurd hsel (by simp)
    | malformed =>
      rw [hpers] at hsel
      dsimp only at hsel
      have h := Option.some.inj hsel
      injection h with h
      rw [← h]
      rfl
    | parsed v =>
      rw [hpers] at hsel
      dsimp only at hsel
      rw [hpers, Option.some.inj hsel] at h1
      exact h1

theorem personality_inRange_ok_bounds {c : Candidate} {j : Job} {r : ℝ}
    (h1 : traitStrInRange c.personality_traits = true)
    (h2 : traitStrInRange c.test_personality_traits = true)
    (h3 : traitStrInRange j.required_personality_traits = true)
    (h4 : requiredTraitCount j ≤ 5)
    (h : _calculate_personality_score c j = .ok r) : 0 ≤ r ∧ r ≤ 1 := by
  refine ⟨?_, personality_ok_le_one h⟩
  rcases personality_ok_form h with h05 | ⟨q, mr, mc, hq, hreq, hsel, hs, hr⟩
  · rw [h05]; norm_num
  · have hmr : mapInRange mr = true := by
      rw [hreq] at h3
      exact h3
    have hmc : mapInRange mc = true := select_obj_inRange h1 h2 hsel
    have hlen : q ≤ ((mr.map Prod.fst).length : ℚ) := sumSqKeys_le_length hmr hmc hs
    have hcount : mr.length ≤ 5 := by
      unfold requiredTraitCount at h4
      rw [hreq] at h4
      exact h4
    have hq5 : q ≤ 5 := by
      rw [List.length_map] at hlen
      calc q ≤ (mr.length : ℚ) := hlen
        _ ≤ 5 := by exact_mod_cast hcount
    rw [hr]
    have hs5 : Real.sqrt (q : ℝ) ≤ Real.sqrt 5 := by
      apply Real.sqrt_le_sqrt
      exact_mod_cast hq5
    have hpos : (0 : ℝ) < Real.sqrt 5 := Real.sqrt_pos.mpr (by norm_num)
    have hdiv : Real.sqrt (q : ℝ) / Real.sqrt 5 ≤ 1 := (div_le_one hpos).mpr hs5
    linarith

theorem candidate_score_ok_bounds {c : Candidate} {j : Job} {t : ℝ}
    (hp : ∀ r : ℝ, _calculate_personality_score c j = .ok r → 0 ≤ r ∧ r ≤ 1)
    (h : _calculate_candidate_score c j = .ok t) : 0 ≤ t ∧ t ≤ 1 := by
  unfold _calculate_candidate_score at h
  cases hq : _calculate_personality_score c j with
  | error e =>
    rw [hq] at h
    simp at h
  | ok p =>
    rw [hq] at h
    dsimp only at h
    simp only [Except.ok.injEq] at h
    obtain ⟨hp0, hp1⟩ := hp p hq
    obtain ⟨ha0, ha1⟩ := skill_score_bounds c j
    obtain ⟨hb0, hb1⟩ := experience_score_bounds c j
    obtain ⟨hc0, hc1⟩ := education_score_bounds c j
    obtain ⟨hd0, hd1⟩ := certification_score_bounds c j
    have ha0' : (0 : ℝ) ≤ (_calculate_skill_score c j : ℝ) := by exact_mod_cast ha0
    have ha1' : (_calculate_skill_score c j : ℝ) ≤ 1 := by exact_mod_cast ha1
    have hb0' : (0 : ℝ) ≤ (_calculate_experience_score c j : ℝ) := by exact_mod_cast hb0
    have hb1' : (_calculate_experience_score c j : ℝ) ≤ 1 := by exact_mod_cast hb1
    have hc0' : (0 : ℝ) ≤ (_calculate_education_score c j : ℝ) := by exact_mod_cast hc0
    have hc1' : (_calculate_education_score c j : ℝ) ≤ 1 := by exact_mod_cast hc1
    have hd0' : (0 : ℝ) ≤ (_calculate_certification_score c j : ℝ) := by exact_mod_cast hd0
    have hd1' : (_calculate_certification_score c j : ℝ) ≤ 1 := by exact_mod_cast hd1
    rw [← h]
    unfold skill_weight experience_weight education_weight certification_weight personality_weight
    constructor
    · nlinarith
    · nlinarith

theorem scoredPairs_ok {j : Job} :
    ∀ {cs : List Candidate} {l : List (Candidate × ℝ)},
      scoredPairs cs j = .ok l →
      l.map Prod.fst = cs ∧ ∀ p ∈ l, _calculate_candidate_score p.1 j = .ok p.2 := by
  intro cs
  induction cs with
  | nil =>
    intro l h
    simp only [scoredPairs, Except.ok.injEq] at h
    rw [← h]
    exact ⟨rfl, by simp⟩
  | cons c rest ih =>
    intro l h
    rw [scoredPairs] at h
    split at h
    · exact absurd h (by simp)
    · rename_i score hscore
      split at h
      · exact absurd h (by simp)
      · rename_i tail htail
        simp only [Except.ok.injEq] at h
        obtain ⟨hmap, hmem⟩ := ih htail
        rw [← h]
        refine ⟨by simp [hmap], ?_⟩
        intro p hp
        rcases List.mem_cons.mp hp with hp | hp
        · rw [hp]
          exact hscore
        · exact hmem p hp

theorem rank_ok {cs : List Candidate} {j : Job} {out : List (Candidate × ℝ)}
    (h : rank_candidates cs j = .ok out) :
    ∃ l, scoredPairs cs j = .ok l ∧ out = l.insertionSort scoreGe := by
  unfold rank_candidates at h
  cases hl : scoredPairs cs j with
  | error e =>
    rw [hl] at h
    simp at h
  | ok l =>
    rw [hl] at h
    simp only [Except.ok.injEq] at h
    exact ⟨l, rfl, h.symm⟩

theorem valNum_num {v : TraitVal} (h : valNum v = true) : ∃ q, v = .num q := by
  cases v with
  | num q => exact ⟨q, rfl⟩
  | nonnum => simp [valNum] at h

theorem allNum_dictGet {m : TraitMap} (hm : m.all (fun p => valNum p.2) = true)
    (k : String) (d : ℚ) : ∃ q, dictGet m k (.num d) = .num q := by
  rcases dictGet_eq_default_or_mem m k (.num d) with h | ⟨p, hp, h⟩
  · exact ⟨d, h⟩
  · rw [List.all_eq_true] at hm
    obtain ⟨q, hq⟩ := valNum_num (hm p hp)
    exact ⟨q, by rw [h, hq]⟩

theorem sumSqKeys_tame_ok {mr mc : TraitMap}
    (hmr : mr.all (fun p => valNum p.2) = true)
    (hmc : mc.all (fun p => valNum p.2) = true) :
    ∀ ks : List String, ∃ q, sumSqKeys mr mc ks = .ok q := by
  intro ks
  induction ks with
  | nil => exact ⟨0, rfl⟩
  | cons k ks ih =>
    obtain ⟨qr, hr⟩ := allNum_dictGet hmr k 0.5
    obtain ⟨qc, hc⟩ := allNum_dictGet hmc k 0.5
    obtain ⟨rest, hrest⟩ := ih
    refine ⟨(qr - qc) ^ 2 + rest, ?_⟩
    rw [sumSqKeys, hr, hc, hrest]
    rfl

theorem select_tame {c : Candidate} {cj : JVal}
    (h1 : traitStrTame c.personality_traits = true)
    (h2 : traitStrTame c.test_personality_traits = true)
    (hsel : selectCandidateTraits c = some cj) : jvalTame cj = true := by
  unfold selectCandidateTraits at hsel
  cases htest : c.test_personality_traits with
  | malformed =>
    rw [htest] at hsel
    dsimp only at hsel
    rw [← Option.some.inj hsel]
    rfl
  | parsed v =>
    rw [htest] at hsel
    dsimp only at hsel
    rw [← Option.some.inj hsel]
    rw [htest] at h2
    exact h2
  | absent =>
    rw [htest] at hsel
    dsimp only at hsel
    cases hpers : c.personality_traits with
    | absent =>
      rw [hpers] at hsel
      exact absurd hsel (by simp)
    | malformed =>
      rw [hpers] at hsel
      dsimp only at hsel
      rw [← Option.some.inj hsel]
      rfl
    | parsed v =>
      rw [hpers] at hsel
      dsimp only at hsel
      rw [← Option.some.inj hsel]
      rw [hpers] at h1
      exact h1

theorem personality_tame_ok {c : Candidate} {j : Job}
    (hj : traitStrTame j.required_personality_traits = true)
    (h1 : traitStrTame c.personality_traits = true)
    (h2 : traitStrTame c.test_personality_traits = true) :
    ∃ r, _calculate_personality_score c j = .ok r := by
  unfold _calculate_personality_score
  cases hreq : j.required_personality_traits with
  | absent => exact ⟨0.5, rfl⟩
  | malformed => exact ⟨0.5, rfl⟩
  | parsed rv =>
    rw [hreq] at hj
    have hrv : jvalTame rv = true := hj
    cases hsel : selectCandidateTraits c with
    | none => exact ⟨0.5, rfl⟩
    | some cj =>
      have hcj : jvalTame cj = true := select_tame h1 h2 hsel
      dsimp only
      by_cases hf : (jvalFalsy rv || jvalFalsy cj) = true
      · exact ⟨0.5, by rw [if_pos hf]⟩
      · cases rv with
        | nonObj t =>
          exfalso
          apply hf
          cases t with
          | false => simp [jvalFalsy]
          | true => simp [jvalTame] at hrv
        | obj mr =>
          cases cj with
          | nonObj t =>
            exfalso
            apply hf
            cases t with
            | false => simp [jvalFalsy]
            | true => simp [jvalTame] at hcj
          | obj mc =>
            obtain ⟨q, hq⟩ := sumSqKeys_tame_ok hrv hcj (mr.map Prod.fst)
            refine ⟨1 - Real.sqrt (q : ℝ) / Real.sqrt 5, ?_⟩
            rw [if_neg hf]
            dsimp only
            rw [hq]

theorem candidate_score_tame_ok {c : Candidate} {j : Job}
    (hj : traitStrTame j.required_personality_traits = true)
    (h1 : traitStrTame c.personality_traits = true)
    (h2 : traitStrTame c.test_personality_traits = true) :
    ∃ t, _calculate_candidate_score c j = .ok t := by
  obtain ⟨r, hr⟩ := personality_tame_ok hj h1 h2
  refine ⟨(_calculate_skill_score c j : ℝ) * skill_weight +
    (_calculate_experience_score c j : ℝ) * experience_weight +
    (_calculate_education_score c j : ℝ) * education_weight +
    (_calculate_certification_score c j : ℝ) * certification_weight +
    r * personality_weight, ?_⟩
  unfold _calculate_candidate_score
  rw [hr]

theorem scoredPairs_tame_ok {j : Job}
    (hj : traitStrTame j.required_personality_traits = true) :
    ∀ {cs : List Candidate},
      (∀ c ∈ cs, traitStrTame c.personality_traits = true ∧
        traitStrTame c.test_personality_traits = true) →
      ∃ l, scoredPairs cs j = .ok l := by
  intro cs
  induction cs with
  | nil => exact fun _ => ⟨[], rfl⟩
  | cons c rest ih =>
    intro hcs
    obtain ⟨h1, h2⟩ := hcs c (List.mem_cons_self c rest)
    obtain ⟨t, ht⟩ := candidate_score_tame_ok hj h1 h2
    obtain ⟨l, hl⟩ := ih (fun c hc => hcs c (List.mem_cons_of_mem _ hc))
    refine ⟨(c, t) :: l, ?_⟩
    rw [scoredPairs, ht, hl]

theorem personality_eval {c : Candidate} {j : Job} {mr mc : TraitMap} {q : ℚ}
    (hreq : j.required_personality_traits = .parsed (.obj mr))
    (hsel : selectCandidateTraits c = some (.obj mc))
    (hmr : mr ≠ []) (hmc : mc ≠ [])
    (hs : sumSqKeys mr mc (mr.map Prod.fst) = .ok q) :
    _calculate_personality_score c j = .ok (1 - Real.sqrt (q : ℝ) / Real.sqrt 5) := by
  unfold _calculate_personality_score
  rw [hreq, hsel]
  dsimp only
  have hf : (jvalFalsy (.obj mr) || jvalFalsy (.obj mc)) = false := by
    simp [jvalFalsy, hmr, hmc]
  rw [hf]
  simp only [Bool.false_eq_true, if_false]
  rw [hs]

theorem personality_score_congr {c c' : Candidate} {j : Job}
    (h : selectCandidateTraits c = selectCandidateTraits c') :
    _calculate_personality_score c j = _calculate_personality_score c' j := by
  unfold _calculate_personality_score
  rw [h]

theorem simil_of_sumSq_zero : (1 : ℝ) - Real.sqrt ((0 : ℚ) : ℝ) / Real.sqrt 5 = 1 := by
  norm_num

theorem simil_of_sumSq_five : (1 : ℝ) - Real.sqrt ((5 : ℚ) : ℝ) / Real.sqrt 5 = 0 := by
  have h5 : ((5 : ℚ) : ℝ) = 5 := by norm_num
  rw [h5, div_self (ne_of_gt (Real.sqrt_pos.mpr (by norm_num)))]
  norm_num

theorem skill_score_eval (c : Candidate) (j : Job) (k n : ℕ)
    (hf : (falsy j.required_skills || falsy c.skills) = false)
    (hk : (pyCommaTokens (orEmpty j.required_skills)).countP
        (fun s => (pyCommaTokens (orEmpty c.skills)).contains s) = k)
    (hn : (pyCommaTokens (orEmpty j.required_skills)).length = n) :
    _calculate_skill_score c j = (k : ℚ) / (n : ℚ) := by
  unfold _calculate_skill_score
  rw [hf]
  simp only [Bool.false_eq_true, if_false]
  rw [show (pyCommaTokens (orEmpty j.required_skills)).isEmpty = false from by
        rw [List.isEmpty_eq_false]; exact pyCommaTokens_ne_nil _]
  simp only [Bool.false_eq_true, if_false]
  rw [hk, hn]

theorem certification_score_eval (c : Candidate) (j : Job) (k n : ℕ)
    (hf : (falsy j.required_certifications || falsy c.certifications) = false)
    (hk : (pyCommaTokens (orEmpty j.required_certifications)).countP
        (fun s => (pyCommaTokens (orEmpty c.certifications)).contains s) = k)
    (hn : (pyCommaTokens (orEmpty j.required_certifications)).length = n) :
    _calculate_certification_score c j = (k : ℚ) / (n : ℚ) := by
  unfold _calculate_certification_score
  rw [hf]
  simp only [Bool.false_eq_true, if_false]
  rw [show (pyCommaTokens (orEmpty j.required_certifications)).isEmpty = false from by
        rw [List.isEmpty_eq_false]; exact pyCommaTokens_ne_nil _]
  simp only [Bool.false_eq_true, if_false]
  rw [hk, hn]

theorem experience_score_eval (c : Candidate) (j : Job) (k n : ℕ)
    (hf : (falsy j.required_experience || falsy c.experience) = false)
    (hne : (pyWsTokens (lowerCL (orEmpty j.required_experience).toList)).isEmpty = false)
    (hk : (pyWsTokens (lowerCL (orEmpty j.required_experience).toList)).countP
        (fun w => containsCL w (lowerCL (orEmpty c.experience).toList)) = k)
    (hn : (pyWsTokens (lowerCL (orEmpty j.required_experience).toList)).length = n) :
    _calculate_experience_score c j = (k : ℚ) / (n : ℚ) := by
  unfold _calculate_experience_score
  rw [hf]
  simp only [Bool.false_eq_true, if_false]
  rw [hne]
  simp only [Bool.false_eq_true, if_false]
  rw [hk, hn]

theorem education_score_eval (c : Candidate) (j : Job) (k n : ℕ)
    (hf : (falsy j.required_education || falsy c.education) = false)
    (hne : (pyWsTokens (lowerCL (orEmpty j.required_education).toList)).isEmpty = false)
    (hk : (pyWsTokens (lowerCL (orEmpty j.required_education).toList)).countP
        (fun w => containsCL w (lowerCL (orEmpty c.education).toList)) = k)
    (hn : (pyWsTokens (lowerCL (orEmpty j.required_education).toList)).length = n) :
    _calculate_education_score c j = (k : ℚ) / (n : ℚ) := by
  unfold _calculate_education_score
  rw [hf]
  simp only [Bool.false_eq_true, if_false]
  rw [hne]
  simp only [Bool.false_eq_true, if_false]
  rw [hk, hn]

theorem skill_score_neutral (c : Candidate) (j : Job)
    (hf : (falsy j.required_skills || falsy c.skills) = true) :
    _calculate_skill_score c j = 0.5 := by
  unfold _calculate_skill_score
  rw [if_pos hf]

theorem experience_score_neutral (c : Candidate) (j : Job)
    (hf : (falsy j.required_experience || falsy c.experience) = true) :
    _calculate_experience_score c j = 0.5 := by
  unfold _calculate_experience_score
  rw [if_pos hf]

theorem education_score_neutral (c : Candidate) (j : Job)
    (hf : (falsy j.required_education || falsy c.education) = true) :
    _calculate_education_score c j = 0.5 := by
  unfold _calculate_education_score
  rw [if_pos hf]

theorem certification_score_neutral (c : Candidate) (j : Job)
    (hf : (falsy j.required_certifications || falsy c.certifications) = true) :
    _calculate_certification_score c j = 0.5 := by
  unfold _calculate_certification_score
  rw [if_pos hf]

theorem candidate_score_eval (c : Candidate) (j : Job) (a b d e : ℚ) (p t : ℝ)
    (ha : _calculate_skill_score c j = a)
    (hb : _calculate_experience_score c j = b)
    (hd : _calculate_education_score c j = d)
    (he : _calculate_certification_score c j = e)
    (hp : _calculate_personality_score c j = .ok p)
    (ht : (a : ℝ) * skill_weight + (b : ℝ) * experience_weight +
      (d : ℝ) * education_weight + (e : ℝ) * certification_weight +
      p * personality_weight = t) :
    _calculate_candidate_score c j = .ok t := by
  unfold _calculate_candidate_score
  rw [hp]
  dsimp only
  rw [ha, hb, hd, he, ht]

/-! ### Concrete records for the testable properties -/

def big5req : TraitMap :=
  [("o", .num 1), ("c", .num 1), ("e", .num 1), ("a", .num 1), ("n", .num 1)]

def big5zero : TraitMap :=
  [("o", .num 0), ("c", .num 0), ("e", .num 0), ("a", .num 0), ("n", .num 0)]

def big6req : TraitMap :=
  [("o", .num 1), ("c", .num 1), ("e", .num 1), ("a", .num 1), ("n", .num 1), ("h", .num 1)]

def big6zero : TraitMap :=
  [("o", .num 0), ("c", .num 0), ("e", .num 0), ("a", .num 0), ("n", .num 0), ("h", .num 0)]

def openReq : TraitMap := [("openness", .num 0.8)]

def openTest : TraitMap := [("openness", .num 0.8)]

def openCv : TraitMap := [("openness", .num 0.2)]

def rankJob : Job :=
  { title := "Data Scientist", required_skills := some "python",
    required_experience := some "ml", required_education := some "bs",
    required_certifications := some "aws",
    required_personality_traits := .parsed (.obj big5req) }

def candA : Candidate :=
  { name := "A", email := "a@x", skills := some "python", experience := some "ml",
    education := some "bs", certifications := some "x",
    personality_traits := .absent, test_personality_traits := .parsed (.obj big5req) }

def candB : Candidate :=
  { name := "B", email := "b@x", skills := some "python", experience := some "zz",
    education := some "zz", certifications := some "x",
    personality_traits := .absent, test_personality_traits := .parsed (.obj big5zero) }

def candC : Candidate :=
  { name := "C", email := "c@x", skills := some "python", experience := some "ml",
    education := some "bs", certifications := some "x",
    personality_traits := .absent, test_personality_traits := .parsed (.obj big5zero) }

def sixJob : Job :=
  { title := "six", required_skills := none, required_experience := none,
    required_education := none, required_certifications := none,
    required_personality_traits := .parsed (.obj big6req) }

def candSix : Candidate :=
  { name := "S", email := "s@x", skills := none, experience := none,
    education := none, certifications := none,
    personality_traits := .absent, test_personality_traits := .parsed (.obj big6zero) }

def openJob : Job :=
  { title := "open", required_skills := none, required_experience := none,
    required_education := none, required_certifications := none,
    required_personality_traits := .parsed (.obj openReq) }

def openCand : Candidate :=
  { name := "O", email := "o@x", skills := none, experience := none,
    education := none, certifications := none,
    personality_traits := .parsed (.obj openCv),
    test_personality_traits := .parsed (.obj openTest) }

def malCand : Candidate :=
  { name := "M", email := "m@x", skills := none, experience := none,
    education := none, certifications := none,
    personality_traits := .parsed (.obj openCv),
    test_personality_traits := .malformed }

def skillJob : Job :=
  { title := "skill", required_skills := some "Python, SQL", required_experience := none,
    required_education := none, required_certifications := none,
    required_personality_traits := .absent }

def skillCand : Candidate :=
  { name := "K", email := "k@x", skills := some "python, java, sql",
    experience := none, education := none, certifications := none,
    personality_traits := .absent, test_personality_traits := .absent }

def blankJob : Job :=
  { title := "blank", required_skills := none, required_experience := none,
    required_education := none, required_certifications := none,
    required_personality_traits := .absent }

def numJob : Job :=
  { title := "num", required_skills := none, required_experience := none,
    required_education := none, required_certifications := none,
    required_personality_traits := .parsed (.nonObj true) }

/-! ### Concrete evaluations -/

theorem sumSq_big5_self : sumSqKeys big5req big5req (big5req.map Prod.fst) = .ok 0 := by
  simp [big5req, sumSqKeys, dictGet, List.lookup, pairSq]
  try norm_num

theorem sumSq_big5_zero : sumSqKeys big5req big5zero (big5req.map Prod.fst) = .ok 5 := by
  simp [big5req, big5zero, sumSqKeys, dictGet, List.lookup, pairSq]
  try norm_num

theorem sumSq_big6 : sumSqKeys big6req big6zero (big6req.map Prod.fst) = .ok 6 := by
  simp [big6req, big6zero, sumSqKeys, dictGet, List.lookup, pairSq]
  try norm_num

theorem sumSq_open : sumSqKeys openReq openTest (openReq.map Prod.fst) = .ok 0 := by
  simp [openReq, openTest, sumSqKeys, dictGet, List.lookup, pairSq]
  try norm_num

theorem pers_candA : _calculate_personality_score candA rankJob = .ok 1 := by
  rw [personality_eval (by rfl) (by rfl) (by decide) (by decide) sumSq_big5_self, simil_of_sumSq_zero]

theorem pers_candB : _calculate_personality_score candB rankJob = .ok 0 := by
  rw [personality_eval (by rfl) (by rfl) (by decide) (by decide) sumSq_big5_zero, simil_of_sumSq_five]

theorem pers_candC : _calculate_personality_score candC rankJob = .ok 0 := by
  rw [personality_eval (by rfl) (by rfl) (by decide) (by decide) sumSq_big5_zero, simil_of_sumSq_five]

theorem pers_candSix :
    _calculate_personality_score candSix sixJob = .ok (1 - Real.sqrt 6 / Real.sqrt 5) := by
  rw [personality_eval (by rfl) (by rfl) (by decide) (by decide) sumSq_big6]
  norm_num

theorem pers_openCand : _calculate_personality_score openCand openJob = .ok 1 := by
  rw [personality_eval (by rfl) (by rfl) (by decide) (by decide) sumSq_open, simil_of_sumSq_zero]

theorem skill_candA : _calculate_skill_score candA rankJob = 1 := by
  rw [skill_score_eval candA rankJob 1 1 (by decide) (by decide) (by decide)]
  norm_num

theorem skill_candB : _calculate_skill_score candB rankJob = 1 := by
  rw [skill_score_eval candB rankJob 1 1 (by decide) (by decide) (by decide)]
  norm_num

theorem skill_candC : _calculate_skill_score candC rankJob = 1 := by
  rw [skill_score_eval candC rankJob 1 1 (by decide) (by decide) (by decide)]
  norm_num

theorem exp_candA : _calculate_experience_score candA rankJob = 1 := by
  rw [experience_score_eval candA rankJob 1 1 (by decide) (by decide) (by decide) (by decide)]
  norm_num

theorem exp_candB : _calculate_experience_score candB rankJob = 0 := by
  rw [experience_score_eval candB rankJob 0 1 (by decide) (by decide) (by decide) (by decide)]
  norm_num

theorem exp_candC : _calculate_experience_score candC rankJob = 1 := by
  rw [experience_score_eval candC rankJob 1 1 (by decide) (by decide) (by decide) (by decide)]
  norm_num

theorem edu_candA : _calculate_education_score candA rankJob = 1 := by
  rw [education_score_eval candA rankJob 1 1 (by decide) (by decide) (by decide) (by decide)]
  norm_num

theorem edu_candB : _calculate_education_score candB rankJob = 0 := by
  rw [education_score_eval candB rankJob 0 1 (by decide) (by decide) (by decide) (by decide)]
  norm_num

theorem edu_candC : _calculate_education_score candC rankJob = 1 := by
  rw [education_score_eval candC rankJob 1 1 (by decide) (by decide) (by decide) (by decide)]
  norm_num

theorem cert_candA : _calculate_certification_score candA rankJob = 0 := by
  rw [certification_score_eval candA rankJob 0 1 (by decide) (by decide) (by decide)]
  norm_num

theorem cert_candB : _calculate_certification_score candB rankJob = 0 := by
  rw [certification_score_eval candB rankJob 0 1 (by decide) (by decide) (by decide)]
  norm_num

theorem cert_candC : _calculate_certification_score candC rankJob = 0 := by
  rw [certification_score_eval candC rankJob 0 1 (by decide) (by decide) (by decide)]
  norm_num

theorem score_candA : _calculate_candidate_score candA rankJob = .ok 0.9 :=
  candidate_score_eval candA rankJob 1 1 1 0 1 0.9 skill_candA exp_candA edu_candA cert_candA
    pers_candA (by norm_num [skill_weight, experience_weight, education_weight,
      certification_weight, personality_weight])

theorem score_candB : _calculate_candidate_score candB rankJob = .ok 0.3 :=
  candidate_score_eval candB rankJob 1 0 0 0 0 0.3 skill_candB exp_candB edu_candB cert_candB
    pers_candB (by norm_num [skill_weight, experience_weight, education_weight,
      certification_weight, personality_weight])

theorem score_candC : _calculate_candidate_score candC rankJob = .ok 0.6 :=
  candidate_score_eval candC rankJob 1 1 1 0 0 0.6 skill_candC exp_candC edu_candC cert_candC
    pers_candC (by norm_num [skill_weight, experience_weight, education_weight,
      certification_weight, personality_weight])

theorem pairs_rank :
    scoredPairs [candA, candB, candC] rankJob =
      .ok [(candA, 0.9), (candB, 0.3), (candC, 0.6)] := by
  simp only [scoredPairs, score_candA, score_candB, score_candC]

theorem rank_eval :
    rank_candidates [candA, candB, candC] rankJob =
      .ok [(candA, 0.9), (candC, 0.6), (candB, 0.3)] := by
  unfold rank_candidates
  rw [pairs_rank]
  norm_num [List.insertionSort, List.orderedInsert, scoreGe]

theorem skill_c4 : _calculate_skill_score skillCand skillJob = 1 := by
  rw [skill_score_eval skillCand skillJob 2 2 (by decide) (by decide) (by decide)]
  norm_num

/-! ### Claims -/

/-- C1 counterexample: the claim "every factor score lies in [0,1]" fails on
the code: with six required traits each differing from the candidate value by
1, the personality factor is `1 - sqrt 6 / sqrt 5 < 0`. -/
theorem C1_counterexample :
    _calculate_personality_score candSix sixJob = .ok (1 - Real.sqrt 6 / Real.sqrt 5) ∧
    1 - Real.sqrt 6 / Real.sqrt 5 < 0 := by
  refine ⟨pers_candSix, ?_⟩
  have h1 : Real.sqrt 5 < Real.sqrt 6 := Real.sqrt_lt_sqrt (by norm_num) (by norm_num)
  have h2 : (0 : ℝ) < Real.sqrt 5 := Real.sqrt_pos.mpr (by norm_num)
  have h3 : 1 < Real.sqrt 6 / Real.sqrt 5 := (one_lt_div h2).mpr h1
  linarith

/-- C1 (amended): for records whose trait mappings carry values in [0,1] and
whose job requires at most five traits, every factor score and the composite
score lie in [0,1] (the four keyword factors need no proviso). -/
theorem C1_amended_bounds : ∀ (c : Candidate) (j : Job),
    traitStrInRange c.personality_traits = true →
    traitStrInRange c.test_personality_traits = true →
    traitStrInRange j.required_personality_traits = true →
    requiredTraitCount j ≤ 5 →
    (0 ≤ _calculate_skill_score c j ∧ _calculate_skill_score c j ≤ 1) ∧
    (0 ≤ _calculate_experience_score c j ∧ _calculate_experience_score c j ≤ 1) ∧
    (0 ≤ _calculate_education_score c j ∧ _calculate_education_score c j ≤ 1) ∧
    (0 ≤ _calculate_certification_score c j ∧ _calculate_certification_score c j ≤ 1) ∧
    (∀ r : ℝ, _calculate_personality_score c j = .ok r → 0 ≤ r ∧ r ≤ 1) ∧
    (∀ t : ℝ, _calculate_candidate_score c j = .ok t → 0 ≤ t ∧ t ≤ 1) := by
  intro c j h1 h2 h3 h4
  exact ⟨skill_score_bounds c j, experience_score_bounds c j, education_score_bounds c j,
    certification_score_bounds c j,
    fun r hr => personality_inRange_ok_bounds h1 h2 h3 h4 hr,
    fun t ht => candidate_score_ok_bounds
      (fun r hr => personality_inRange_ok_bounds h1 h2 h3 h4 hr) ht⟩

/-- C1 witness: the amended bound applied to a concrete candidate and job. -/
theorem C1_witness : 0 ≤ (0.9 : ℝ) ∧ (0.9 : ℝ) ≤ 1 :=
  (C1_amended_bounds candA rankJob (by decide) (by decide) (by decide)
    (by decide)).2.2.2.2.2 0.9 score_candA

/-- C2: when `test_personality_traits` parses, the personality score is
independent of `personality_traits`; concretely, with test 0.8, CV value 0.2
and required 0.8 the score is exactly 1. -/
theorem C2_test_traits_precedence :
    (∀ (c : Candidate) (j : Job) (v : JVal) (t : TraitStr),
      c.test_personality_traits = .parsed v →
      _calculate_personality_score c j =
        _calculate_personality_score { c with personality_traits := t } j) ∧
    _calculate_personality_score openCand openJob = .ok 1 := by
  constructor
  · intro c j v t h
    apply personality_score_congr
    have e1 : selectCandidateTraits c = some v := by
      unfold selectCandidateTraits
      rw [h]
    have e2 : selectCandidateTraits { c with personality_traits := t } = some v := by
      unfold selectCandidateTraits
      dsimp only
      rw [h]
    rw [e1, e2]
  · exact pers_openCand

/-- C2 witness: precedence applied at the concrete records. -/
theorem C2_witness :
    _calculate_personality_score openCand openJob =
      _calculate_personality_score { openCand with personality_traits := .absent } openJob :=
  C2_test_traits_precedence.1 openCand openJob (.obj openTest) .absent rfl

/-- C3: a present-but-unparseable `test_personality_traits` yields the
neutral 0.5 regardless of the other trait source. -/
theorem C3_malformed_test_neutral : ∀ (c : Candidate) (j : Job),
    c.test_personality_traits = .malformed →
    _calculate_personality_score c j = .ok 0.5 := by
  intro c j htest
  have hsel : selectCandidateTraits c = some (.obj []) := by
    unfold selectCandidateTraits
    rw [htest]
  unfold _calculate_personality_score
  cases hreq : j.required_personality_traits with
  | absent => rfl
  | malformed => rfl
  | parsed rv =>
    dsimp only
    rw [hsel]
    dsimp only
    rw [if_pos (by simp [jvalFalsy])]

/-- C3 witness: the malformed-test rule at concrete records. -/
theorem C3_witness : _calculate_personality_score malCand openJob = .ok 0.5 :=
  C3_malformed_test_neutral malCand openJob rfl

/-- C4: the skill scorer is comma-tokenize/trim/lowercase with neutral 0.5
on an empty side and containment ratio otherwise; the spec example scores 1. -/
theorem C4_skill_formula :
    (∀ (c : Candidate) (j : Job),
      _calculate_skill_score c j =
        if (falsy j.required_skills || falsy c.skills) = true then 0.5
        else ((pyCommaTokens (orEmpty j.required_skills)).countP
            (fun s => (pyCommaTokens (orEmpty c.skills)).contains s) : ℚ) /
          ((pyCommaTokens (orEmpty j.required_skills)).length : ℚ)) ∧
    _calculate_skill_score skillCand skillJob = 1 := by
  constructor
  · intro c j
    by_cases hf : (falsy j.required_skills || falsy c.skills) = true
    · rw [if_pos hf]
      exact skill_score_neutral c j hf
    · rw [if_neg hf]
      exact skill_score_eval c j _ _ (by simpa using hf) rfl rfl
  · exact skill_c4

/-- C5: in the distance branch the scorer returns exactly
`1 - sqrt sum_sq / sqrt 5`, with the denominator the fixed constant `sqrt 5`
whatever the length of the required trait mapping; consequently five required
traits each differing by 1 score exactly 0, while six such traits score
`1 - sqrt 6 / sqrt 5`, which is not 0 — as it would be were the scorer
normalizing by the actual trait count. -/
theorem C5_fixed_normalizer :
    (∀ (c : Candidate) (j : Job) (mr mc : TraitMap) (q : ℚ),
      j.required_personality_traits = .parsed (.obj mr) →
      selectCandidateTraits c = some (.obj mc) →
      mr ≠ [] → mc ≠ [] →
      sumSqKeys mr mc (mr.map Prod.fst) = .ok q →
      _calculate_personality_score c j = .ok (1 - Real.sqrt (q : ℝ) / Real.sqrt 5)) ∧
    _calculate_personality_score candB rankJob = .ok 0 ∧
    _calculate_personality_score candSix sixJob = .ok (1 - Real.sqrt 6 / Real.sqrt 5) ∧
    (1 : ℝ) - Real.sqrt 6 / Real.sqrt 5 ≠ 0 := by
  refine ⟨fun c j mr mc q hreq hsel hmr hmc hs =>
    personality_eval hreq hsel hmr hmc hs, pers_candB, pers_candSix, ?_⟩
  have h1 : Real.sqrt 5 < Real.sqrt 6 := Real.sqrt_lt_sqrt (by norm_num) (by norm_num)
  have h2 : (0 : ℝ) < Real.sqrt 5 := Real.sqrt_pos.mpr (by norm_num)
  have h3 : 1 < Real.sqrt 6 / Real.sqrt 5 := (one_lt_div h2).mpr h1
  intro h
  linarith

/-- C5 witness: the sqrt-5-normalized formula instantiated at the concrete
five-trait worst case. -/
theorem C5_witness :
    _calculate_personality_score candB rankJob =
      .ok (1 - Real.sqrt ((5 : ℚ) : ℝ) / Real.sqrt 5) :=
  C5_fixed_normalizer.1 candB rankJob big5req big5zero 5 rfl rfl (by decide) (by decide)
    sumSq_big5_zero

/-- C6: each of the four keyword factors scores the neutral 0.5 whenever the
job side or the candidate side of that factor is missing or empty. -/
theorem C6_neutral_on_missing : ∀ (c : Candidate) (j : Job),
    (falsy j.required_skills = true → _calculate_skill_score c j = 0.5) ∧
    (falsy c.skills = true → _calculate_skill_score c j = 0.5) ∧
    (falsy j.required_experience = true → _calculate_experience_score c j = 0.5) ∧
    (falsy c.experience = true → _calculate_experience_score c j = 0.5) ∧
    (falsy j.required_education = true → _calculate_education_score c j = 0.5) ∧
    (falsy c.education = true → _calculate_education_score c j = 0.5) ∧
    (falsy j.required_certifications = true → _calculate_certification_score c j = 0.5) ∧
    (falsy c.certifications = true → _calculate_certification_score c j = 0.5) := by
  intro c j
  exact ⟨fun h => skill_score_neutral c j (by simp [h]),
    fun h => skill_score_neutral c j (by simp [h]),
    fun h => experience_score_neutral c j (by simp [h]),
    fun h => experience_score_neutral c j (by simp [h]),
    fun h => education_score_neutral c j (by simp [h]),
    fun h => education_score_neutral c j (by simp [h]),
    fun h => certification_score_neutral c j (by simp [h]),
    fun h => certification_score_neutral c j (by simp [h])⟩

/-- C6 witness: neutrality at a concrete blank job. -/
theorem C6_witness : _calculate_skill_score candA blankJob = 0.5 :=
  (C6_neutral_on_missing candA blankJob).1 rfl

/-- C7: ranking returns one scored pair per input candidate, sorted by
non-increasing score; the empty input gives the empty output, and the
0.9/0.3/0.6 example comes back ordered 0.9/0.6/0.3. -/
theorem C7_rank_shape :
    (∀ (cs : List Candidate) (j : Job) (out : List (Candidate × ℝ)),
      rank_candidates cs j = .ok out →
      out.length = cs.length ∧
      (out.map Prod.fst).Perm cs ∧
      (∀ p ∈ out, _calculate_candidate_score p.1 j = .ok p.2) ∧
      out.Pairwise scoreGe) ∧
    (∀ j : Job, rank_candidates [] j = .ok []) ∧
    rank_candidates [candA, candB, candC] rankJob =
      .ok [(candA, 0.9), (candC, 0.6), (candB, 0.3)] := by
  refine ⟨?_, fun j => rfl, rank_eval⟩
  intro cs j out h
  obtain ⟨l, hl, hout⟩ := rank_ok h
  obtain ⟨hmap, hmem⟩ := scoredPairs_ok hl
  have hperm : out.Perm l := hout ▸ List.perm_insertionSort scoreGe l
  refine ⟨?_, ?_, ?_, ?_⟩
  · rw [hout, List.length_insertionSort, ← hmap, List.length_map]
  · have hm := hperm.map Prod.fst
    rw [hmap] at hm
    exact hm
  · intro p hp
    exact hmem p (hperm.mem_iff.mp hp)
  · rw [hout]
    exact List.sorted_insertionSort scoreGe l

/-- C7 witness: the shape facts applied to the concrete example. -/
theorem C7_witness :
    ([(candA, (0.9 : ℝ)), (candC, 0.6), (candB, 0.3)]).length =
      [candA, candB, candC].length :=
  (C7_rank_shape.1 [candA, candB, candC] rankJob _ C7_rank_shape.2.2).1

/-- C8: the sort is stable: input pairs with any common score survive as a
subsequence of the ranked output in their input order. -/
theorem C8_stable_ties :
    ∀ (cs : List Candidate) (j : Job) (l out : List (Candidate × ℝ)) (s : ℝ),
      scoredPairs cs j = .ok l →
      rank_candidates cs j = .ok out →
      (l.filter (fun p => decide (p.2 = s))).Sublist out := by
  intro cs j l out s hl hout
  obtain ⟨l2, hl2, hout2⟩ := rank_ok hout
  rw [hl] at hl2
  injection hl2 with e
  subst e
  rw [hout2]
  apply List.sublist_insertionSort
  · apply List.pairwise_of_forall_mem_list
    intro a ha b hb
    have ha2 : a.2 = s := of_decide_eq_true (List.mem_filter.mp ha).2
    have hb2 : b.2 = s := of_decide_eq_true (List.mem_filter.mp hb).2
    unfold scoreGe
    rw [ha2, hb2]
  · exact List.filter_sublist l

/-- C8 witness: stability instantiated at a concrete input. -/
theorem C8_witness :
    (([] : List (Candidate × ℝ)).filter (fun p => decide (p.2 = (0 : ℝ)))).Sublist [] :=
  C8_stable_ties [] blankJob [] [] 0 rfl rfl

/-- C9 counterexample: a job whose trait column holds truthy non-object JSON
(e.g. the valid JSON text "[1, 2]") escapes the bare `except` around
`json.loads` and the distance loop raises to the caller. -/
theorem C9_counterexample : rank_candidates [candA] numJob = .error () := rfl

/-- C9 (amended): for every candidate list and job whose serialized trait
columns are absent, non-JSON, falsy non-objects, or numeric trait mappings,
`rank_candidates` returns normally. -/
theorem C9_amended_tame_total : ∀ (cs : List Candidate) (j : Job),
    traitStrTame j.required_personality_traits = true →
    (∀ c ∈ cs, traitStrTame c.personality_traits = true ∧
      traitStrTame c.test_personality_traits = true) →
    ∃ out, rank_candidates cs j = .ok out := by
  intro cs j hj hcs
  obtain ⟨l, hl⟩ := scoredPairs_tame_ok hj hcs
  refine ⟨l.insertionSort scoreGe, ?_⟩
  unfold rank_candidates
  rw [hl]

/-- C9 witness: totality at concrete tame records. -/
theorem C9_witness : ∃ out, rank_candidates [candA] rankJob = .ok out :=
  C9_amended_tame_total [candA] rankJob (by decide) (by decide)

/-- C10: every personality score the scorer actually returns is at most 1,
since the summed squared differences are nonnegative. -/
theorem C10_personality_le_one : ∀ (c : Candidate) (j : Job) (r : ℝ),
    _calculate_personality_score c j = .ok r → r ≤ 1 :=
  fun _ _ _ h => personality_ok_le_one h

/-- C10 witness: the bound at a concrete score of exactly 1. -/
theorem C10_witness : (1 : ℝ) ≤ 1 :=
  C10_personality_le_one candA rankJob 1 pers_candA

end RankingSystem

